import Mathlib

/-!
Shallow embedding of the rock-paper-scissors contract
(src/rock-paper-scissors/src/{state.rs, contract.rs, error.rs, msg.rs}).

Identities are modelled as validated strings (the spec treats address
validation as an external collaborator).  The persistent `GAME` map
(`Map<(&Addr, &Addr), Game>`) is modelled as an association list kept in
ascending key order, matching the store's ascending range scans.
-/

/-- The `GameMove` enum from state.rs. -/
inductive GameMove where
  | Rock
  | Paper
  | Scissors
deriving DecidableEq, Repr

/-- The `GameResult` enum from state.rs. -/
inductive GameResult where
  | HostWins
  | OpponentWins
  | Tie
deriving DecidableEq, Repr

/-- The `Game` struct from state.rs. -/
structure Game where
  host : String
  opponent : String
  host_move : GameMove
  opp_move : Option GameMove
  result : Option GameResult
deriving DecidableEq, Repr

/-- The variants of `ContractError` (error.rs) that the embedded operations
can produce.  `Panic` stands for the `panic!("Unexpected result")` branch of
`execute_respond` in contract.rs. -/
inductive ContractError where
  | Unauthorized
  | BlacklistedAddress (addr : String)
  | UnexpectedGameResult
  | GameNotFound
  | Panic
deriving DecidableEq, Repr

/-- Strict ordering of composite `(host, opponent)` keys.
Modelled from the spec: the storage engine (an external collaborator,
§1 OUT OF SCOPE) iterates the map in "ascending (host, opponent) key
order" (§4.3), modelled as lexicographic order on the pair. -/
def keyLt (a b : String × String) : Prop :=
  a.1 < b.1 ∨ (a.1 = b.1 ∧ a.2 < b.2)

/-- A kernel-reducible decision procedure for `String` order (the core
`String.decidableLT` goes through the non-reducing `String.ltb`). -/
instance (priority := 2000) strLtDec (s t : String) : Decidable (s < t) :=
  decidable_of_iff (s.toList < t.toList) String.lt_iff_toList_lt.symm

instance keyLt.decide (a b : String × String) : Decidable (keyLt a b) := by
  unfold keyLt; infer_instance

/-- Point lookup in the association-list model of the `GAME` map. -/
def mapLoad (l : List ((String × String) × Game)) (k : String × String) :
    Option Game :=
  match l with
  | [] => none
  | (k', v) :: t => if k = k' then some v else mapLoad t k

/-- `GAME.save`: insert or replace, keeping the list in ascending key order. -/
def mapSave (l : List ((String × String) × Game)) (k : String × String)
    (v : Game) : List ((String × String) × Game) :=
  match l with
  | [] => [(k, v)]
  | (k', v') :: t =>
    if keyLt k k' then (k, v) :: (k', v') :: t
    else if k = k' then (k, v) :: t
    else (k', v') :: mapSave t k v

/-- `GAME.remove`: delete every entry at the given key. -/
def mapRemove (l : List ((String × String) × Game)) (k : String × String) :
    List ((String × String) × Game) :=
  l.filter (fun p => ¬ (p.1 = k))

/-- The contract state: `STATE` (owner), `ADMIN`, `HOOKS` and `GAME`
from state.rs, gathered into one record. -/
structure ContractState where
  owner : String
  admin : Option String
  hooks : List String
  games : List ((String × String) × Game)
deriving DecidableEq, Repr

/-- `instantiate` from contract.rs: stores the sender as owner and the
optional admin address. -/
def instantiate (sender : String) (admin_address : Option String) :
    ContractState :=
  { owner := sender, admin := admin_address, hooks := [], games := [] }

/-- `get_result` from contract.rs: errors with `UnexpectedGameResult` when
`opp_move` is absent, otherwise resolves the 3×3 move table. -/
def get_result (game : Game) : Except ContractError GameResult :=
  match game.opp_move with
  | none => Except.error ContractError.UnexpectedGameResult
  | some opponent_move =>
    match game.host_move with
    | GameMove.Paper =>
      match opponent_move with
      | GameMove.Paper => Except.ok GameResult.Tie
      | GameMove.Rock => Except.ok GameResult.HostWins
      | GameMove.Scissors => Except.ok GameResult.OpponentWins
    | GameMove.Rock =>
      match opponent_move with
      | GameMove.Paper => Except.ok GameResult.OpponentWins
      | GameMove.Rock => Except.ok GameResult.Tie
      | GameMove.Scissors => Except.ok GameResult.HostWins
    | GameMove.Scissors =>
      match opponent_move with
      | GameMove.Paper => Except.ok GameResult.HostWins
      | GameMove.Rock => Except.ok GameResult.OpponentWins
      | GameMove.Scissors => Except.ok GameResult.Tie

/-- `execute_start_game` from contract.rs: rejects a blacklisted sender
with `BlacklistedAddress`, otherwise saves a fresh `Game` under the
`(sender, opponent)` key. -/
def execute_start_game (st : ContractState) (sender opponent : String)
    (first_move : GameMove) : Except ContractError ContractState :=
  if st.hooks.contains sender then
    Except.error (ContractError.BlacklistedAddress sender)
  else
    let game : Game :=
      { host := sender, opponent := opponent, host_move := first_move
        opp_move := none, result := none }
    Except.ok { st with games := mapSave st.games (sender, opponent) game }

/-- The result-tag strings of `execute_respond` in contract.rs. -/
def resultTag (r : GameResult) : String :=
  match r with
  | GameResult.HostWins => "Host Wins"
  | GameResult.OpponentWins => "Opponent Wins"
  | GameResult.Tie => "Tie"

/-- `execute_respond` from contract.rs: loads the game at
`(host, sender)` (failing with `GameNotFound`), resolves the result with
the sender's move filled in, updates the record, removes it, and returns
the new state together with the result tag. -/
def execute_respond (st : ContractState) (sender host : String)
    (second_move : GameMove) :
    Except ContractError (ContractState × String) :=
  match mapLoad st.games (host, sender) with
  | none => Except.error ContractError.GameNotFound
  | some game_load =>
    match get_result { game_load with opp_move := some second_move } with
    | Except.error e => Except.error e
    | Except.ok r =>
      let game_result_tmp := some r
      match mapLoad st.games (host, sender) with
      | none => Except.error ContractError.GameNotFound
      | some g =>
        let game : Game :=
          { g with opp_move := some second_move, result := game_result_tmp }
        let games' :=
          mapRemove (mapSave st.games (host, sender) game) (host, sender)
        match game.result with
        | some gr =>
          Except.ok ({ st with games := games' }, resultTag gr)
        | none => Except.error ContractError.Panic

/-- Modelled from the spec: `is_admin` of the external admin capability
(cw-controllers, not part of this repository's sources) "compares the
actor against AdminState, always false if AdminState is absent" (§4.1). -/
def is_admin (st : ContractState) (actor : String) : Bool :=
  st.admin == some actor

/-- Modelled from the spec: `transfer_admin` of the external admin
capability (cw-controllers, not part of this repository's sources) "fails
with Unauthorized unless is_admin(actor); on success replaces AdminState"
(§4.1). -/
def execute_update_admin (st : ContractState) (sender new_admin : String) :
    Except ContractError ContractState :=
  if is_admin st sender then
    Except.ok { st with admin := some new_admin }
  else
    Except.error ContractError.Unauthorized

/-- Modelled from the spec: `add_to_blacklist` of the external hooks
capability (cw-controllers, not part of this repository's sources) "fails
with Unauthorized unless is_admin(actor); otherwise idempotently inserts
the target" (§4.1). -/
def execute_add_hook (st : ContractState) (sender addr : String) :
    Except ContractError ContractState :=
  if is_admin st sender then
    Except.ok
      { st with hooks := if st.hooks.contains addr then st.hooks
                         else st.hooks ++ [addr] }
  else
    Except.error ContractError.Unauthorized

/-- Modelled from the spec: `remove_from_blacklist` of the external hooks
capability (cw-controllers, not part of this repository's sources) "fails
with Unauthorized unless is_admin(actor); otherwise idempotently removes
the target" (§4.1). -/
def execute_remove_hook (st : ContractState) (sender addr : String) :
    Except ContractError ContractState :=
  if is_admin st sender then
    Except.ok { st with hooks := st.hooks.filter (fun a => ¬ (a = addr)) }
  else
    Except.error ContractError.Unauthorized

/-- The `ExecuteMsg` enum from msg.rs. -/
inductive ExecuteMsg where
  | StartGame (opponent : String) (first_move : GameMove)
  | Respond (host : String) (second_move : GameMove)
  | UpdateAdmin (admin_address : String)
  | AddHook (addr : String)
  | RemoveHook (addr : String)
deriving DecidableEq, Repr

/-- The `execute` dispatcher from contract.rs, projected onto the
resulting state. -/
def execute (st : ContractState) (sender : String) (msg : ExecuteMsg) :
    Except ContractError ContractState :=
  match msg with
  | ExecuteMsg.StartGame opponent first_move =>
    execute_start_game st sender opponent first_move
  | ExecuteMsg.Respond host second_move =>
    (execute_respond st sender host second_move).map Prod.fst
  | ExecuteMsg.UpdateAdmin admin_address =>
    execute_update_admin st sender admin_address
  | ExecuteMsg.AddHook addr => execute_add_hook st sender addr
  | ExecuteMsg.RemoveHook addr => execute_remove_hook st sender addr

/-- States reachable by `instantiate` followed by any sequence of
successful `execute` calls. -/
inductive reachable : ContractState → Prop where
  | init (sender : String) (admin_address : Option String) :
      reachable (instantiate sender admin_address)
  | step (st : ContractState) (sender : String) (msg : ExecuteMsg)
      (st' : ContractState) (h : reachable st)
      (hexec : execute st sender msg = Except.ok st') : reachable st'

deriving instance DecidableEq for Except

/-- A fresh `Game` record, as built by `execute_start_game`. -/
def freshGame (host opponent : String) (first_move : GameMove) : Game :=
  { host := host, opponent := opponent, host_move := first_move,
    opp_move := none, result := none }

-- Sample evaluations (sanity checks on the embedding).
example :
    get_result { host := "a", opponent := "b", host_move := GameMove.Rock,
                 opp_move := some GameMove.Scissors, result := none }
      = Except.ok GameResult.HostWins := by decide

example :
    execute (instantiate "a" none) "a" (ExecuteMsg.StartGame "b" GameMove.Rock)
      = Except.ok
          { owner := "a", admin := none, hooks := [],
            games := [(("a", "b"), freshGame "a" "b" GameMove.Rock)] } := by
  decide

/-- `get_game_by_host` from contract.rs: ascending prefix scan of the
`GAME` map at the given host, returning the stored records. -/
def get_game_by_host (st : ContractState) (host : String) : List Game :=
  (st.games.filter (fun p => p.1.1 = host)).map (fun p => p.2)

/-- `get_game_by_opponent` from contract.rs: full ascending scan of the
`GAME` map post-filtered on the record's `opponent` field. -/
def get_game_by_opponent (st : ContractState) (opponent : String) :
    List Game :=
  (st.games.filter (fun p => p.2.opponent = opponent)).map (fun p => p.2)

/-- A reachable state with one open match: host `"a"`, opponent `"b"`. -/
def demoStart : ContractState :=
  ContractState.mk "a" none [] [(("a", "b"), freshGame "a" "b" GameMove.Rock)]

/-- A reachable state with two open matches of host `"a"`. -/
def demoTwo : ContractState :=
  ContractState.mk "a" none []
    [(("a", "b"), freshGame "a" "b" GameMove.Rock),
     (("a", "c"), freshGame "a" "c" GameMove.Paper)]

/-- A reachable state with two hosts `"a"`, `"b"` both targeting `"c"`. -/
def demoOpp : ContractState :=
  ContractState.mk "a" none []
    [(("a", "c"), freshGame "a" "c" GameMove.Rock),
     (("b", "c"), freshGame "b" "c" GameMove.Paper)]

/-! ### Order facts about composite keys -/

lemma keyLt_irrefl (a : String × String) : ¬ keyLt a a := by
  rintro (h | ⟨-, h⟩) <;> exact lt_irrefl _ h

lemma keyLt_trans {a b c : String × String} (h1 : keyLt a b)
    (h2 : keyLt b c) : keyLt a c := by
  rcases h1 with h1 | ⟨e1, h1⟩ <;> rcases h2 with h2 | ⟨e2, h2⟩
  · exact Or.inl (lt_trans h1 h2)
  · exact Or.inl (e2 ▸ h1)
  · exact Or.inl (e1 ▸ h2)
  · exact Or.inr ⟨e1.trans e2, lt_trans h1 h2⟩

lemma keyLt_of_not_of_ne {a b : String × String} (h1 : ¬ keyLt a b)
    (h2 : ¬ a = b) : keyLt b a := by
  rcases lt_trichotomy a.1 b.1 with h | h | h
  · exact absurd (Or.inl h) h1
  · rcases lt_trichotomy a.2 b.2 with h' | h' | h'
    · exact absurd (Or.inr ⟨h, h'⟩) h1
    · exact absurd (Prod.ext h h') h2
    · exact Or.inr ⟨h.symm, h'⟩
  · exact Or.inl h

lemma keyLt_ne {a b : String × String} (h : keyLt a b) : ¬ a = b :=
  fun he => keyLt_irrefl a (by exact he ▸ h)

/-! ### Store lemmas -/

lemma mapSave_cons_lt {k k' : String × String} {v v' : Game}
    {t : List ((String × String) × Game)} (h : keyLt k k') :
    mapSave ((k', v') :: t) k v = (k, v) :: (k', v') :: t := by
  simp [mapSave, h]

lemma mapSave_cons_eq {k k' : String × String} {v v' : Game}
    {t : List ((String × String) × Game)} (h : k = k') :
    mapSave ((k', v') :: t) k v = (k, v) :: t := by
  subst h
  simp [mapSave, keyLt_irrefl k]

lemma mapSave_cons_gt {k k' : String × String} {v v' : Game}
    {t : List ((String × String) × Game)} (h1 : ¬ keyLt k k')
    (h2 : ¬ k = k') :
    mapSave ((k', v') :: t) k v = (k', v') :: mapSave t k v := by
  simp [mapSave, h1, h2]

lemma mapLoad_mapSave_self (l : List ((String × String) × Game))
    (k : String × String) (v : Game) : mapLoad (mapSave l k v) k = some v := by
  induction l with
  | nil => simp [mapSave, mapLoad]
  | cons p t ih =>
    obtain ⟨k', v'⟩ := p
    by_cases h1 : keyLt k k'
    · simp [mapSave_cons_lt h1, mapLoad]
    · by_cases h2 : k = k'
      · simp [mapSave_cons_eq h2, mapLoad]
      · simp [mapSave_cons_gt h1 h2, mapLoad, h2, ih]

lemma mapLoad_mapSave_ne (l : List ((String × String) × Game))
    (k k₂ : String × String) (v : Game) (h : ¬ k₂ = k) :
    mapLoad (mapSave l k v) k₂ = mapLoad l k₂ := by
  induction l with
  | nil => simp [mapSave, mapLoad, h]
  | cons p t ih =>
    obtain ⟨k', v'⟩ := p
    by_cases h1 : keyLt k k'
    · simp [mapSave_cons_lt h1, mapLoad, h]
    · by_cases h2 : k = k'
      · subst h2; simp [mapSave_cons_eq rfl, mapLoad, h]
      · by_cases h3 : k₂ = k'
        · simp [mapSave_cons_gt h1 h2, mapLoad, h3]
        · simp [mapSave_cons_gt h1 h2, mapLoad, h3, ih]

lemma mem_mapSave {l : List ((String × String) × Game)}
    {k : String × String} {v : Game} {p : (String × String) × Game}
    (h : p ∈ mapSave l k v) : p = (k, v) ∨ p ∈ l := by
  induction l with
  | nil => simpa [mapSave] using h
  | cons q t ih =>
    obtain ⟨k', v'⟩ := q
    by_cases h1 : keyLt k k'
    · simp only [mapSave_cons_lt h1, List.mem_cons] at h
      simp only [List.mem_cons]
      tauto
    · by_cases h2 : k = k'
      · simp only [mapSave_cons_eq h2, List.mem_cons] at h
        simp only [List.mem_cons]
        tauto
      · simp only [mapSave_cons_gt h1 h2, List.mem_cons] at h
        rcases h with h | h
        · exact Or.inr (h ▸ List.mem_cons_self _ _)
        · rcases ih h with h' | h'
          · exact Or.inl h'
          · exact Or.inr (List.mem_cons_of_mem _ h')

lemma mapLoad_mem {l : List ((String × String) × Game)}
    {k : String × String} {g : Game} (h : mapLoad l k = some g) :
    (k, g) ∈ l := by
  induction l with
  | nil => simp [mapLoad] at h
  | cons p t ih =>
    obtain ⟨k', v'⟩ := p
    by_cases h1 : k = k'
    · simp only [mapLoad, if_pos h1] at h
      subst h1
      cases h
      exact List.mem_cons_self _ _
    · simp only [mapLoad, if_neg h1] at h
      exact List.mem_cons_of_mem _ (ih h)

lemma mem_mapRemove {l : List ((String × String) × Game)}
    {k : String × String} {p : (String × String) × Game} :
    p ∈ mapRemove l k ↔ p ∈ l ∧ ¬ p.1 = k := by
  simp [mapRemove, List.mem_filter]

lemma mapLoad_eq_none {l : List ((String × String) × Game)}
    {k : String × String} (h : ∀ p ∈ l, ¬ p.1 = k) : mapLoad l k = none := by
  induction l with
  | nil => simp [mapLoad]
  | cons p t ih =>
    obtain ⟨k', v'⟩ := p
    have hk : ¬ k = k' := fun he => h (k', v') (List.mem_cons_self _ _) he.symm
    simp only [mapLoad, if_neg hk]
    exact ih (fun q hq => h q (List.mem_cons_of_mem _ hq))

lemma mapLoad_mapRemove_self (l : List ((String × String) × Game))
    (k : String × String) : mapLoad (mapRemove l k) k = none :=
  mapLoad_eq_none (fun _ hp => (mem_mapRemove.mp hp).2)

/-! ### Sortedness and well-formedness of the store -/

/-- The association-list model of the `GAME` map is strictly ascending in
the composite key. -/
def sortedKeys (l : List ((String × String) × Game)) : Prop :=
  l.Pairwise (fun a b => keyLt a.1 b.1)

/-- Every stored entry mirrors its key in the record's `host`/`opponent`
fields and is still awaiting a response. -/
def entriesWF (l : List ((String × String) × Game)) : Prop :=
  ∀ p ∈ l, p.2.host = p.1.1 ∧ p.2.opponent = p.1.2 ∧
    p.2.opp_move = none ∧ p.2.result = none

lemma sortedKeys_mapSave (k : String × String) (v : Game)
    {l : List ((String × String) × Game)} :
    sortedKeys l → sortedKeys (mapSave l k v) := by
  induction l with
  | nil =>
    intro h
    simp [mapSave, sortedKeys]
  | cons p t ih =>
    intro h
    obtain ⟨k', v'⟩ := p
    rw [sortedKeys, List.pairwise_cons] at h
    obtain ⟨hhead, htail⟩ := h
    by_cases h1 : keyLt k k'
    · rw [sortedKeys, mapSave_cons_lt h1, List.pairwise_cons]
      refine ⟨?_, ?_⟩
      · intro q hq
        rcases List.mem_cons.mp hq with rfl | hq'
        · exact h1
        · exact keyLt_trans h1 (hhead q hq')
      · rw [List.pairwise_cons]
        exact ⟨hhead, htail⟩
    · by_cases h2 : k = k'
      · subst h2
        rw [sortedKeys, mapSave_cons_eq rfl, List.pairwise_cons]
        exact ⟨hhead, htail⟩
      · rw [sortedKeys, mapSave_cons_gt h1 h2, List.pairwise_cons]
        refine ⟨?_, ih htail⟩
        intro q hq
        rcases mem_mapSave hq with rfl | hq'
        · exact keyLt_of_not_of_ne h1 h2
        · exact hhead q hq'

lemma sortedKeys_mapRemove {l : List ((String × String) × Game)}
    (k : String × String) (h : sortedKeys l) : sortedKeys (mapRemove l k) :=
  List.Pairwise.sublist (List.filter_sublist l) h

/-! ### Shapes of successful executions -/

lemma execute_start_game_ok {st st' : ContractState}
    {sender opponent : String} {first_move : GameMove}
    (h : execute_start_game st sender opponent first_move = Except.ok st') :
    st.hooks.contains sender = false ∧
    st' = { st with games := mapSave st.games (sender, opponent)
                      (freshGame sender opponent first_move) } := by
  simp only [execute_start_game] at h
  split at h
  · simp at h
  · rename_i hb
    injection h with h
    exact ⟨by simpa using hb, h.symm⟩

lemma execute_respond_ok {st st' : ContractState} {sender host tag : String}
    {m : GameMove}
    (h : execute_respond st sender host m = Except.ok (st', tag)) :
    ∃ g gr, mapLoad st.games (host, sender) = some g ∧
      get_result { g with opp_move := some m } = Except.ok gr ∧
      tag = resultTag gr ∧
      st'.games = mapRemove (mapSave st.games (host, sender)
          { g with opp_move := some m, result := some gr }) (host, sender) ∧
      st'.owner = st.owner ∧ st'.admin = st.admin ∧ st'.hooks = st.hooks := by
  unfold execute_respond at h
  split at h
  · simp at h
  · rename_i game_load hl
    split at h
    · simp at h
    · rename_i r hr
      split at h
      · rename_i hnone
        simp at hnone
      · rename_i g2 hg2
        injection hg2 with hg2
        subst hg2
        simp only [Except.ok.injEq, Prod.mk.injEq] at h
        obtain ⟨h1, h2⟩ := h
        refine ⟨game_load, r, hl, hr, h2.symm, ?_, ?_, ?_, ?_⟩ <;> rw [← h1]

lemma execute_games_eq_of_admin_ops {st st' : ContractState}
    {sender a : String}
    (h : execute_update_admin st sender a = Except.ok st' ∨
         execute_add_hook st sender a = Except.ok st' ∨
         execute_remove_hook st sender a = Except.ok st') :
    st'.games = st.games := by
  rcases h with h | h | h
  · simp only [execute_update_admin] at h
    split at h
    · injection h with h
      rw [← h]
    · simp at h
  · simp only [execute_add_hook] at h
    split at h
    · injection h with h
      rw [← h]
    · simp at h
  · simp only [execute_remove_hook] at h
    split at h
    · injection h with h
      rw [← h]
    · simp at h

/-! ### The reachability invariant -/

lemma reachable_invariant (st : ContractState) (h : reachable st) :
    sortedKeys st.games ∧ entriesWF st.games := by
  induction h with
  | init sender admin_address =>
    simp [instantiate, sortedKeys, entriesWF]
  | step st sender msg st' hst hexec ih =>
    obtain ⟨hsort, hwf⟩ := ih
    cases msg with
    | StartGame opponent first_move =>
      simp only [execute] at hexec
      obtain ⟨-, rfl⟩ := execute_start_game_ok hexec
      refine ⟨sortedKeys_mapSave _ _ hsort, ?_⟩
      intro p hp
      rcases mem_mapSave hp with rfl | hp'
      · simp [freshGame]
      · exact hwf p hp'
    | Respond host second_move =>
      simp only [execute] at hexec
      cases he : execute_respond st sender host second_move with
      | error e =>
        rw [he] at hexec
        simp [Except.map] at hexec
      | ok pr =>
        rw [he] at hexec
        obtain ⟨stR, tag⟩ := pr
        simp only [Except.map, Except.ok.injEq] at hexec
        subst hexec
        obtain ⟨g, gr, hl, hr, htag, hgames, -, -, -⟩ := execute_respond_ok he
        rw [hgames]
        refine ⟨sortedKeys_mapRemove _ (sortedKeys_mapSave _ _ hsort), ?_⟩
        intro p hp
        obtain ⟨hpm, hpk⟩ := mem_mapRemove.mp hp
        rcases mem_mapSave hpm with rfl | hp'
        · exact absurd rfl hpk
        · exact hwf p hp'
    | UpdateAdmin a =>
      simp only [execute] at hexec
      have hg : st'.games = st.games :=
        execute_games_eq_of_admin_ops (Or.inl hexec)
      rw [hg]
      exact ⟨hsort, hwf⟩
    | AddHook a =>
      simp only [execute] at hexec
      have hg : st'.games = st.games :=
        execute_games_eq_of_admin_ops (Or.inr (Or.inl hexec))
      rw [hg]
      exact ⟨hsort, hwf⟩
    | RemoveHook a =>
      simp only [execute] at hexec
      have hg : st'.games = st.games :=
        execute_games_eq_of_admin_ops (Or.inr (Or.inr hexec))
      rw [hg]
      exact ⟨hsort, hwf⟩

/-! ### Totality of the resolver once both moves are present -/

lemma get_result_some (g : Game) (m : GameMove) :
    ∃ r, get_result { g with opp_move := some m } = Except.ok r := by
  obtain ⟨ho, op, hm, om, res⟩ := g
  cases hm <;> cases m <;> simp [get_result]

/-! ### Reachability of the demo states -/

lemma demoStart_reachable : reachable demoStart :=
  reachable.step (instantiate "a" none) "a"
    (ExecuteMsg.StartGame "b" GameMove.Rock) demoStart
    (reachable.init "a" none) (by decide)

lemma demoTwo_reachable : reachable demoTwo :=
  reachable.step demoStart "a"
    (ExecuteMsg.StartGame "c" GameMove.Paper) demoTwo
    demoStart_reachable (by decide)

lemma demoOpp_reachable : reachable demoOpp :=
  reachable.step
    (ContractState.mk "a" none [] [(("a", "c"), freshGame "a" "c" GameMove.Rock)])
    "b" (ExecuteMsg.StartGame "c" GameMove.Paper) demoOpp
    (reachable.step (instantiate "a" none) "a"
      (ExecuteMsg.StartGame "c" GameMove.Rock)
      (ContractState.mk "a" none [] [(("a", "c"), freshGame "a" "c" GameMove.Rock)])
      (reachable.init "a" none) (by decide))
    (by decide)

/-! ### The claims -/

/-- C1: `get_result`, applied to a Match whose `opp_move` is `Some`,
implements standard rock-paper-scissors: identical moves yield `Tie`;
Rock beats Scissors, Scissors beats Paper, Paper beats Rock, with
`HostWins` when the host played the dominating move and `OpponentWins`
when the opponent did. -/
theorem C1_get_result_standard_rps (g : Game) (m : GameMove)
    (h : g.opp_move = some m) :
    (g.host_move = m → get_result g = Except.ok GameResult.Tie)
    ∧ (g.host_move = GameMove.Rock → m = GameMove.Scissors →
        get_result g = Except.ok GameResult.HostWins)
    ∧ (g.host_move = GameMove.Scissors → m = GameMove.Rock →
        get_result g = Except.ok GameResult.OpponentWins)
    ∧ (g.host_move = GameMove.Scissors → m = GameMove.Paper →
        get_result g = Except.ok GameResult.HostWins)
    ∧ (g.host_move = GameMove.Paper → m = GameMove.Scissors →
        get_result g = Except.ok GameResult.OpponentWins)
    ∧ (g.host_move = GameMove.Paper → m = GameMove.Rock →
        get_result g = Except.ok GameResult.HostWins)
    ∧ (g.host_move = GameMove.Rock → m = GameMove.Paper →
        get_result g = Except.ok GameResult.OpponentWins) := by
  obtain ⟨ho, op, hm, om, res⟩ := g
  obtain rfl : om = some m := h
  cases hm <;> cases m <;> simp [get_result]

/-- Witness for C1 at a concrete Match: Rock versus Scissors is a host
win. -/
theorem C1_witness :
    get_result (Game.mk "h" "o" GameMove.Rock (some GameMove.Scissors) none)
      = Except.ok GameResult.HostWins :=
  (C1_get_result_standard_rps
    (Game.mk "h" "o" GameMove.Rock (some GameMove.Scissors) none)
    GameMove.Scissors rfl).2.1 rfl rfl

/-- C3: a start-match request by a currently blacklisted caller always
fails with `BlacklistedAddress` carrying the caller's address, for every
opponent string and every first move; no state is produced, so the Match
Store is unchanged. -/
theorem C3_blacklisted_start_fails (st : ContractState)
    (sender opponent : String) (first_move : GameMove)
    (h : st.hooks.contains sender = true) :
    execute_start_game st sender opponent first_move
      = Except.error (ContractError.BlacklistedAddress sender) := by
  have h' : sender ∈ st.hooks := by simpa using h
  simp [execute_start_game, h']

/-- Witness for C3: a blacklisted caller `"x"` is rejected. -/
theorem C3_witness :
    execute_start_game (ContractState.mk "a" (some "a") ["x"] [])
      "x" "b" GameMove.Rock
      = Except.error (ContractError.BlacklistedAddress "x") :=
  C3_blacklisted_start_fails (ContractState.mk "a" (some "a") ["x"] [])
    "x" "b" GameMove.Rock (by decide)

/-- C5: an `UpdateAdmin` request by a non-admin fails with `Unauthorized`
(producing no state, so AdminState is unchanged); by the current admin it
succeeds, replaces AdminState with the new identity, and the change is
immediately reflected in `is_admin`. -/
theorem C5_admin_transfer (st : ContractState) (actor new_admin : String) :
    (is_admin st actor = false →
      execute_update_admin st actor new_admin
        = Except.error ContractError.Unauthorized)
    ∧ (is_admin st actor = true →
      execute_update_admin st actor new_admin
        = Except.ok { st with admin := some new_admin }
      ∧ ∀ a, (is_admin { st with admin := some new_admin } a = true ↔
          a = new_admin)) := by
  constructor
  · intro h
    unfold execute_update_admin
    rw [h]
    simp
  · intro h
    refine ⟨by unfold execute_update_admin; rw [h]; simp, ?_⟩
    intro a
    simp only [is_admin, beq_iff_eq, Option.some.injEq]
    exact eq_comm

/-- Witness for C5: with admin `"a"`, the transfer by `"e"` is rejected
and the transfer by `"a"` succeeds. -/
theorem C5_witness :
    (execute_update_admin (instantiate "c" (some "a")) "e" "b"
      = Except.error ContractError.Unauthorized)
    ∧ (execute_update_admin (instantiate "c" (some "a")) "a" "b"
      = Except.ok { instantiate "c" (some "a") with admin := some "b" }) :=
  ⟨(C5_admin_transfer (instantiate "c" (some "a")) "e" "b").1 (by decide),
   ((C5_admin_transfer (instantiate "c" (some "a")) "a" "b").2 (by decide)).1⟩

/-- C9: `UnexpectedGameResult` (and the panic on an absent result) never
surfaces from `execute_respond`: the resolver is total once the opponent
move is filled in, and every respond request either fails with
`GameNotFound` or succeeds. -/
theorem C9_unexpected_never_surfaces :
    (∀ (g : Game) (m2 : GameMove),
      ∃ r, get_result { g with opp_move := some m2 } = Except.ok r)
    ∧ (∀ (st : ContractState) (sender host : String) (m : GameMove),
      execute_respond st sender host m
          = Except.error ContractError.GameNotFound
        ∨ ∃ out, execute_respond st sender host m = Except.ok out) := by
  refine ⟨get_result_some, ?_⟩
  intro st sender host m
  unfold execute_respond
  split
  · exact Or.inl rfl
  · rename_i g hl
    split
    · rename_i e he
      obtain ⟨r, hr⟩ := get_result_some g m
      rw [hr] at he
      simp at he
    · rename_i r hr
      split
      · rename_i hnone
        simp at hnone
      · rename_i g2 hg2
        injection hg2 with hg2
        subst hg2
        exact Or.inr ⟨_, rfl⟩

/-- C2: if the store holds a Match at `(H, O)`, `respond` invoked by `O`
succeeds, returns the tag of the resolved result of the stored host move
against the caller's move, and removes the record (a subsequent lookup at
`(H, O)` finds nothing); if the store holds no Match at `(H, O)` — never
created, already resolved, or the caller differs from the recorded
opponent — `respond` fails with `GameNotFound`. -/
theorem C2_respond_semantics (st : ContractState) (H O : String)
    (m : GameMove) :
    (∀ g, mapLoad st.games (H, O) = some g →
      ∃ st' r, execute_respond st O H m = Except.ok (st', resultTag r)
        ∧ get_result { g with opp_move := some m } = Except.ok r
        ∧ mapLoad st'.games (H, O) = none)
    ∧ (mapLoad st.games (H, O) = none →
      execute_respond st O H m = Except.error ContractError.GameNotFound) := by
  constructor
  · intro g hg
    obtain ⟨r, hr⟩ := get_result_some g m
    refine ⟨{ st with games := mapRemove (mapSave st.games (H, O) { g with opp_move := some m, result := some r }) (H, O) }, r, ?_, hr, mapLoad_mapRemove_self _ _⟩
    unfold execute_respond
    split
    · rename_i hnone
      rw [hg] at hnone
      simp at hnone
    · rename_i game_load heq
      rw [hg] at heq
      injection heq with heq
      subst heq
      split
      · rename_i e he
        rw [hr] at he
        simp at he
      · rename_i r2 hr2
        rw [hr] at hr2
        injection hr2 with hr2
        subst hr2
        split
        · rename_i hnone
          simp at hnone
        · rename_i g2 hg2
          injection hg2 with hg2
          subst hg2
          rfl
  · intro h
    unfold execute_respond
    rw [h]

/-- Witness for C2: responding to the open match of `demoStart` succeeds
and deletes it; responding against an absent host fails with
`GameNotFound`. -/
theorem C2_witness :
    (∃ st' r,
      execute_respond demoStart "b" "a" GameMove.Scissors
          = Except.ok (st', resultTag r)
        ∧ get_result { freshGame "a" "b" GameMove.Rock with opp_move := some GameMove.Scissors } = Except.ok r
        ∧ mapLoad st'.games ("a", "b") = none)
    ∧ execute_respond demoStart "b" "c" GameMove.Rock
        = Except.error ContractError.GameNotFound :=
  ⟨(C2_respond_semantics demoStart "a" "b" GameMove.Scissors).1
      (freshGame "a" "b" GameMove.Rock) (by decide),
   (C2_respond_semantics demoStart "c" "b" GameMove.Rock).2 (by decide)⟩

/-- C4: a resolved Match never persists — in every reachable state every
stored Match has `opp_move = none` and `result = none`; and immediately
after a successful start, the lookup at `(sender, opponent)` returns the
fresh open Match. -/
theorem C4_resolved_never_persists :
    (∀ st, reachable st → ∀ k g, (k, g) ∈ st.games →
      g.opp_move = none ∧ g.result = none)
    ∧ (∀ st sender opponent first_move st',
      execute_start_game st sender opponent first_move = Except.ok st' →
      mapLoad st'.games (sender, opponent)
        = some (freshGame sender opponent first_move)) := by
  constructor
  · intro st hr k g hmem
    obtain ⟨-, hwf⟩ := reachable_invariant st hr
    exact ⟨(hwf (k, g) hmem).2.2.1, (hwf (k, g) hmem).2.2.2⟩
  · intro st sender opponent first_move st' h
    obtain ⟨-, h2⟩ := execute_start_game_ok h
    rw [h2]
    exact mapLoad_mapSave_self _ _ _

/-- Witness for C4 on the reachable state `demoStart`. -/
theorem C4_witness :
    ((freshGame "a" "b" GameMove.Rock).opp_move = none
      ∧ (freshGame "a" "b" GameMove.Rock).result = none)
    ∧ mapLoad demoStart.games ("a", "b")
        = some (freshGame "a" "b" GameMove.Rock) :=
  ⟨C4_resolved_never_persists.1 demoStart demoStart_reachable ("a", "b")
      (freshGame "a" "b" GameMove.Rock) (by decide),
   C4_resolved_never_persists.2 (instantiate "a" none) "a" "b" GameMove.Rock
      demoStart (by decide)⟩

/-- C8: a second successful start at an occupied key silently replaces
the record with a fresh Match — no error, the new record is stored, keys
stay duplicate-free, and all other keys are untouched. -/
theorem C8_duplicate_start_overwrites (st : ContractState) (H O : String)
    (m1 m2 : GameMove) (g : Game) (hr : reachable st)
    (hb : st.hooks.contains H = false)
    (_hload : mapLoad st.games (H, O) = some g)
    (_hm : g.host_move = m1) :
    ∃ st', execute_start_game st H O m2 = Except.ok st'
      ∧ mapLoad st'.games (H, O) = some (freshGame H O m2)
      ∧ st'.games.Pairwise (fun a b => ¬ a.1 = b.1)
      ∧ ∀ k, ¬ k = (H, O) → mapLoad st'.games k = mapLoad st.games k := by
  refine ⟨{ st with games := mapSave st.games (H, O) (freshGame H O m2) }, ?_, mapLoad_mapSave_self _ _ _, ?_, ?_⟩
  · have hb' : H ∉ st.hooks := by simpa using hb
    simp [execute_start_game, hb', freshGame]
  · have hs := sortedKeys_mapSave (H, O) (freshGame H O m2)
      (reachable_invariant st hr).1
    exact List.Pairwise.imp (fun h => keyLt_ne h) hs
  · intro k hk
    exact mapLoad_mapSave_ne _ _ _ _ hk

/-- Witness for C8: restarting the `("a", "b")` match of `demoStart` with
Paper. -/
theorem C8_witness :
    ∃ st', execute_start_game demoStart "a" "b" GameMove.Paper
        = Except.ok st'
      ∧ mapLoad st'.games ("a", "b") = some (freshGame "a" "b" GameMove.Paper)
      ∧ st'.games.Pairwise (fun a b => ¬ a.1 = b.1)
      ∧ ∀ k, ¬ k = ("a", "b") →
          mapLoad st'.games k = mapLoad demoStart.games k :=
  C8_duplicate_start_overwrites demoStart "a" "b" GameMove.Rock GameMove.Paper
    (freshGame "a" "b" GameMove.Rock) demoStart_reachable (by decide)
    (by decide) (by decide)

/-- C10: key-record coherence — in every reachable state, a Match stored
under key `(h, o)` has `host = h` and `opponent = o`. -/
theorem C10_key_record_coherence (st : ContractState) (hr : reachable st) :
    ∀ h o g, ((h, o), g) ∈ st.games → g.host = h ∧ g.opponent = o := by
  intro h o g hmem
  obtain ⟨-, hwf⟩ := reachable_invariant st hr
  exact ⟨(hwf _ hmem).1, (hwf _ hmem).2.1⟩

/-- Witness for C10 on the reachable state `demoStart`. -/
theorem C10_witness :
    (freshGame "a" "b" GameMove.Rock).host = "a"
      ∧ (freshGame "a" "b" GameMove.Rock).opponent = "b" :=
  C10_key_record_coherence demoStart demoStart_reachable "a" "b"
    (freshGame "a" "b" GameMove.Rock) (by decide)

/-- C6: the query-by-host returns exactly the stored Matches whose key's
first component is the host, in ascending order of the opponent
component. -/
theorem C6_query_by_host (st : ContractState) (H : String)
    (hr : reachable st) :
    (∀ g, g ∈ get_game_by_host st H ↔ ∃ o, ((H, o), g) ∈ st.games)
    ∧ (get_game_by_host st H).Pairwise
        (fun a b => a.opponent < b.opponent) := by
  obtain ⟨hsort, hwf⟩ := reachable_invariant st hr
  constructor
  · intro g
    constructor
    · intro hg
      simp only [get_game_by_host, List.mem_map] at hg
      obtain ⟨p, hp, rfl⟩ := hg
      obtain ⟨⟨ph, po⟩, pg⟩ := p
      rw [List.mem_filter] at hp
      obtain ⟨hp1, hp2⟩ := hp
      have hph : ph = H := by simpa using hp2
      subst hph
      exact ⟨po, hp1⟩
    · rintro ⟨o, ho⟩
      simp only [get_game_by_host, List.mem_map]
      refine ⟨((H, o), g), ?_, rfl⟩
      rw [List.mem_filter]
      exact ⟨ho, by simp⟩
  · rw [get_game_by_host, List.pairwise_map]
    refine List.Pairwise.imp_of_mem ?_
      (List.Pairwise.sublist (List.filter_sublist _) hsort)
    intro a b ha hb hab
    have haf := List.mem_filter.mp ha
    have hbf := List.mem_filter.mp hb
    have haH : a.1.1 = H := by simpa using haf.2
    have hbH : b.1.1 = H := by simpa using hbf.2
    have hoa : a.2.opponent = a.1.2 := (hwf a haf.1).2.1
    have hob : b.2.opponent = b.1.2 := (hwf b hbf.1).2.1
    rw [hoa, hob]
    rcases hab with h | h
    · rw [haH, hbH] at h
      exact absurd h (lt_irrefl _)
    · exact h.2

/-- Witness for C6 on `demoTwo`: both matches of host `"a"` are listed,
ordered by opponent, and the returned snapshot is exactly the two
records. -/
theorem C6_witness :
    ((freshGame "a" "b" GameMove.Rock) ∈ get_game_by_host demoTwo "a"
      ↔ ∃ o, (("a", o), freshGame "a" "b" GameMove.Rock) ∈ demoTwo.games)
    ∧ (get_game_by_host demoTwo "a").Pairwise
        (fun x y => x.opponent < y.opponent)
    ∧ get_game_by_host demoTwo "a"
        = [freshGame "a" "b" GameMove.Rock, freshGame "a" "c" GameMove.Paper] :=
  ⟨(C6_query_by_host demoTwo "a" demoTwo_reachable).1 _,
   (C6_query_by_host demoTwo "a" demoTwo_reachable).2,
   by decide⟩

/-- C7: the query-by-opponent returns exactly the stored Matches, across
all hosts, whose `opponent` field equals the argument, in ascending
`(host, opponent)` key order. -/
theorem C7_query_by_opponent (st : ContractState) (O : String)
    (hr : reachable st) :
    (∀ g, g ∈ get_game_by_opponent st O ↔
      (∃ k, (k, g) ∈ st.games) ∧ g.opponent = O)
    ∧ (get_game_by_opponent st O).Pairwise
        (fun a b => keyLt (a.host, a.opponent) (b.host, b.opponent)) := by
  obtain ⟨hsort, hwf⟩ := reachable_invariant st hr
  constructor
  · intro g
    constructor
    · intro hg
      simp only [get_game_by_opponent, List.mem_map] at hg
      obtain ⟨p, hp, rfl⟩ := hg
      rw [List.mem_filter] at hp
      obtain ⟨hp1, hp2⟩ := hp
      exact ⟨⟨p.1, hp1⟩, by simpa using hp2⟩
    · rintro ⟨⟨k, hk⟩, hop⟩
      simp only [get_game_by_opponent, List.mem_map]
      refine ⟨(k, g), ?_, rfl⟩
      rw [List.mem_filter]
      exact ⟨hk, by simpa using hop⟩
  · rw [get_game_by_opponent, List.pairwise_map]
    refine List.Pairwise.imp_of_mem ?_
      (List.Pairwise.sublist (List.filter_sublist _) hsort)
    intro a b ha hb hab
    have haf := List.mem_filter.mp ha
    have hbf := List.mem_filter.mp hb
    have ha2 : (a.2.host, a.2.opponent) = a.1 := by
      obtain ⟨h1, h2, -, -⟩ := hwf a haf.1
      rw [h1, h2]
    have hb2 : (b.2.host, b.2.opponent) = b.1 := by
      obtain ⟨h1, h2, -, -⟩ := hwf b hbf.1
      rw [h1, h2]
    rw [ha2, hb2]
    exact hab

/-- Witness for C7 on `demoOpp`: the matches of hosts `"a"` and `"b"`
targeting `"c"` are both returned, in ascending key order. -/
theorem C7_witness :
    ((freshGame "a" "c" GameMove.Rock) ∈ get_game_by_opponent demoOpp "c"
      ↔ (∃ k, (k, freshGame "a" "c" GameMove.Rock) ∈ demoOpp.games)
        ∧ (freshGame "a" "c" GameMove.Rock).opponent = "c")
    ∧ (get_game_by_opponent demoOpp "c").Pairwise
        (fun x y => keyLt (x.host, x.opponent) (y.host, y.opponent))
    ∧ get_game_by_opponent demoOpp "c"
        = [freshGame "a" "c" GameMove.Rock, freshGame "b" "c" GameMove.Paper] :=
  ⟨(C7_query_by_opponent demoOpp "c" demoOpp_reachable).1 _,
   (C7_query_by_opponent demoOpp "c" demoOpp_reachable).2,
   by decide⟩
